import Mathlib

/-!
InternalDataFacade: the loading and query layer.

A shallow embedding of `Server/DataStructures/InternalDataFacade.h`.

* Files are sequences of `char`; an input stream is the characters not yet
  extracted together with its `eofbit` and `failbit`.
* A C++ object that is filled by `read((char*)&x, sizeof(x))` is modelled by its
  object representation (a list of `char`) and a `decode` function; the record
  types `NodeInfo` and `OriginalEdgeData` are declared outside this header, so
  their layouts are parameters.
* Exceptions and failed assertions are values of `Failure`.
* The `while(!stream.eof())` loop may run forever, so it carries fuel.
-/

namespace OSRM

/-! ## Failures -/

/-- The ways a member function can leave other than by returning. -/
inductive Failure where
  /-- `throw OSRMException(what)`. -/
  | OSRMException (what : String)
  /-- `std::out_of_range`, thrown by `std::vector::at`. -/
  | out_of_range
  /-- `boost::filesystem::filesystem_error`, thrown by `file_size` on a path
  that does not name a file. -/
  | filesystem_error
  /-- A failed `BOOST_ASSERT_MSG(expr, msg)`: the process is aborted. -/
  | assertion_failed (msg : String)
  deriving DecidableEq, Repr

/-! ## Files and input streams -/

/-- A file on disk: its characters, and whether opening it for reading succeeds. -/
structure FileNode where
  readable : Bool
  content : List Char
  deriving DecidableEq, Repr

/-- A file system maps a path to the file stored there, if any. -/
abbrev FileSystem := String → Option FileNode

/-- The function `boost::filesystem::exists`. -/
def FileSystem.fileExists (fs : FileSystem) (path : String) : Bool :=
  (fs path).isSome

/-- The throwing overload of `boost::filesystem::file_size`. -/
def FileSystem.file_size (fs : FileSystem) (path : String) : Except Failure Nat :=
  match fs path with
  | some f => .ok f.content.length
  | none => .error .filesystem_error

/-- State of a `std::istream`: the characters still to be extracted and the two
state bits the header depends on. -/
structure IStream where
  rest : List Char
  eofbit : Bool
  failbit : Bool
  deriving DecidableEq, Repr

namespace IStream

/-- The member `eof()`. -/
def eof (s : IStream) : Bool := s.eofbit

/-- The member `good()`: no state bit is set. -/
def good (s : IStream) : Bool := !s.eofbit && !s.failbit

/-- The member `read(buf, n)` of `std::istream`, where `buf` is the object
representation being overwritten. On a stream that is not good nothing is
extracted and `failbit` is set. Otherwise up to `n` characters are extracted
and stored at the start of `buf`; when the end of the file is reached first,
`eofbit` and `failbit` are set and the rest of `buf` keeps its old contents. -/
def read (s : IStream) (buf : List Char) (n : Nat) : IStream × List Char :=
  if s.good then
    let got := s.rest.take n
    if got.length < n then
      ({ rest := [], eofbit := true, failbit := true }, got ++ buf.drop got.length)
    else
      ({ rest := s.rest.drop n, eofbit := false, failbit := false }, got ++ buf.drop n)
  else
    ({ s with failbit := true }, buf)

/-- The function `std::getline(stream, str)`. On a stream that is not good `str` is
left alone and `failbit` is set. Otherwise `str` is erased and characters are
extracted up to and including the first newline, which is not stored; reaching the
end of the file sets `eofbit`, and extracting nothing at all sets `failbit`. -/
def getline (s : IStream) (str : String) : IStream × String :=
  if s.good then
    let line := s.rest.takeWhile (· != '\n')
    let after := s.rest.dropWhile (· != '\n')
    match after with
    | [] => ({ rest := [], eofbit := true, failbit := line.isEmpty }, String.mk line)
    | _ :: tail => ({ rest := tail, eofbit := false, failbit := false }, String.mk line)
  else
    ({ s with failbit := true }, str)

end IStream

/-- Constructor `boost::filesystem::ifstream(path)`: a good stream over the
file's characters, or a stream with `failbit` set when the file cannot be opened. -/
def ifstream (fs : FileSystem) (path : String) : IStream :=
  match fs path with
  | some f =>
    if f.readable then { rest := f.content, eofbit := false, failbit := false }
    else { rest := [], eofbit := false, failbit := true }
  | none => { rest := [], eofbit := false, failbit := true }

/-! ## Vectors -/

/-- The member `std::vector::at`: bounds-checked element access. -/
def vectorAt {α : Type} (v : List α) (i : Nat) : Except Failure α :=
  match v.get? i with
  | some a => .ok a
  | none => .error .out_of_range

/-- The member `std::vector::resize(n)`: cut to `n` elements, or pad with
value-initialised ones. -/
def vectorResize {α : Type} (zero : α) (v : List α) (n : Nat) : List α :=
  v.take n ++ List.replicate (n - v.length) zero

/-- The member `std::string::resize(n)`: cut to `n` characters, or pad with
null characters. -/
def stringResize (s : String) (n : Nat) : String :=
  String.mk (s.data.take n ++ List.replicate (n - s.data.length) '\x00')

/-! ## Declarations from outside the header -/

/-- How a trivially copyable C++ type lies in memory: its size, the value an
object representation stands for, and the representation of a local variable
that was declared without an initialiser. -/
structure Layout (α : Type) where
  sizeof : Nat
  sizeof_pos : 0 < sizeof
  decode : List Char → α
  init : List Char
  init_length : init.length = sizeof

/-- The fields of `NodeInfo` that the header reads. -/
structure NodeInfo where
  lat : Int
  lon : Int
  deriving DecidableEq, Repr

/-- The fields of `OriginalEdgeData` that the header reads. -/
structure OriginalEdgeData where
  viaNode : Nat
  nameID : Nat
  turnInstruction : Nat
  deriving DecidableEq, Repr

/-- The value built by `FixedPointCoordinate(lat, lon)`. -/
structure FixedPointCoordinate where
  lat : Int
  lon : Int
  deriving DecidableEq, Repr

/-- What `readHSGRFromStream` hands back: its return value and the three
objects it fills through its reference and pointer arguments. -/
structure HSGR (StrNode StrEdge : Type) where
  number_of_nodes : Nat
  node_list : List StrNode
  edge_list : List StrEdge
  check_sum : Nat

/-- Everything the header uses but does not declare: the build flag that
disables assertions, the memory layouts of `unsigned`, `NodeInfo` and
`OriginalEdgeData`, the graph and spatial-index classes with their
constructors, the topology reader, and `boost::filesystem::absolute`. -/
structure Collaborators where
  NDEBUG : Bool
  sizeof_unsigned : Nat
  sizeof_unsigned_pos : 0 < sizeof_unsigned
  decode_unsigned : List Char → Nat
  nodeInfo : Layout NodeInfo
  originalEdgeData : Layout OriginalEdgeData
  StrNode : Type
  StrEdge : Type
  QueryGraph : Type
  StaticRTree : Type
  readHSGRFromStream : FileSystem → String → Except Failure (HSGR StrNode StrEdge)
  newQueryGraph : List StrNode → List StrEdge → QueryGraph
  newStaticRTree : FileSystem → String → String → Except Failure StaticRTree
  absolute : String → String → String

/-- The interface of `IniFile` used by the constructor. -/
structure IniFile where
  Holds : String → Bool
  GetParameter : String → String

/-- The macro `BOOST_ASSERT_MSG(expr, msg)`: nothing when assertions are compiled
out, otherwise a fatal failure when `expr` is false. -/
def BOOST_ASSERT_MSG (NDEBUG : Bool) (expr : Bool) (msg : String) : Except Failure Unit :=
  if NDEBUG then .ok ()
  else if expr then .ok ()
  else .error (.assertion_failed msg)

/-- What the constructor does to the outside world, as far as the header shows:
a file-size query, or the start of one of the four loaders. -/
inductive Event where
  | file_size (path : String)
  | LoadGraph (hsgr_path : String)
  | LoadNodeAndEdgeInformation (nodes_file edges_file : String)
  | LoadRTree (ram_index_path file_index_path : String)
  | LoadTimestamp (timestamp_path : String)
  deriving DecidableEq, Repr

/-- How a run of the constructor ends: it returns, it leaves through an
exception or a failed assertion, or it is still in the node loop when the fuel
is used up. -/
inductive Outcome (α : Type) where
  | returned (value : α)
  | raised (failure : Failure)
  | unfinished

/-! ## The facade -/

/-- The data members of `InternalDataFacade`. The two pointers are `none` and
the two counters are `0` until `LoadGraph` assigns them. -/
structure InternalDataFacade (C : Collaborators) where
  m_check_sum : Nat
  m_number_of_nodes : Nat
  m_query_graph : Option C.QueryGraph
  m_timestamp : String
  m_coordinate_list : List FixedPointCoordinate
  m_via_node_list : List Nat
  m_name_ID_list : List Nat
  m_turn_instruction_list : List Nat
  m_static_rtree : Option C.StaticRTree

namespace InternalDataFacade

variable {C : Collaborators}

/-- The members as they are when the body of the public constructor starts:
the string and the four vectors are empty. -/
def fresh (C : Collaborators) : InternalDataFacade C where
  m_check_sum := 0
  m_number_of_nodes := 0
  m_query_graph := none
  m_timestamp := ""
  m_coordinate_list := []
  m_via_node_list := []
  m_name_ID_list := []
  m_turn_instruction_list := []
  m_static_rtree := none

/-- Member `LoadTimestamp`. -/
def LoadTimestamp (fs : FileSystem) (timestamp_path : String)
    (self : InternalDataFacade C) : InternalDataFacade C :=
  let self₁ :=
    if fs.fileExists timestamp_path then
      let timestampInStream := ifstream fs timestamp_path
      { self with m_timestamp := (timestampInStream.getline self.m_timestamp).2 }
    else self
  let self₂ :=
    if self₁.m_timestamp.isEmpty then { self₁ with m_timestamp := "n/a" } else self₁
  if 25 < self₂.m_timestamp.length then
    { self₂ with m_timestamp := stringResize self₂.m_timestamp 25 }
  else self₂

/-- Member `LoadGraph`. -/
def LoadGraph (fs : FileSystem) (hsgr_path : String)
    (self : InternalDataFacade C) : Except Failure (InternalDataFacade C) :=
  match C.readHSGRFromStream fs hsgr_path with
  | .error e => .error e
  | .ok r =>
    match BOOST_ASSERT_MSG C.NDEBUG (0 == r.node_list.length) "node list not flushed" with
    | .error e => .error e
    | .ok _ =>
      match BOOST_ASSERT_MSG C.NDEBUG (0 == r.edge_list.length) "edge list not flushed" with
      | .error e => .error e
      | .ok _ =>
        .ok { self with
          m_number_of_nodes := r.number_of_nodes
          m_check_sum := r.check_sum
          m_query_graph := some (C.newQueryGraph r.node_list r.edge_list) }

/-- The loop `while(!nodes_input_stream.eof())` of `LoadNodeAndEdgeInformation`:
each round reads `sizeof(NodeInfo)` characters into `current_node` and appends
its coordinate. One unit of fuel is spent per test of the loop condition; `none`
means the fuel ran out before the condition became false. -/
def nodeLoop (N : Layout NodeInfo) :
    Nat → IStream → List Char → List FixedPointCoordinate →
      Option (IStream × List Char × List FixedPointCoordinate)
  | 0, _, _, _ => none
  | fuel + 1, nodes_input_stream, current_node, m_coordinate_list =>
    if nodes_input_stream.eof then
      some (nodes_input_stream, current_node, m_coordinate_list)
    else
      let r := nodes_input_stream.read current_node N.sizeof
      let node := N.decode r.2
      nodeLoop N fuel r.1 r.2 (m_coordinate_list ++ [FixedPointCoordinate.mk node.lat node.lon])

/-- The three metadata vectors, written together by the edge loop. -/
structure EdgeLists where
  m_via_node_list : List Nat
  m_name_ID_list : List Nat
  m_turn_instruction_list : List Nat
  deriving DecidableEq, Repr

/-- The loop `for(unsigned i = 0; i < number_of_edges; ++i)` of
`LoadNodeAndEdgeInformation`; the first argument is `number_of_edges - i`. -/
def edgeLoop (E : Layout OriginalEdgeData) :
    Nat → Nat → IStream → List Char → EdgeLists → IStream × List Char × EdgeLists
  | 0, _, edges_input_stream, current_edge_data, lists =>
    (edges_input_stream, current_edge_data, lists)
  | todo + 1, i, edges_input_stream, current_edge_data, lists =>
    let r := edges_input_stream.read current_edge_data E.sizeof
    let edge := E.decode r.2
    edgeLoop E todo (i + 1) r.1 r.2
      { m_via_node_list := lists.m_via_node_list.set i edge.viaNode
        m_name_ID_list := lists.m_name_ID_list.set i edge.nameID
        m_turn_instruction_list := lists.m_turn_instruction_list.set i edge.turnInstruction }

/-- Member `LoadNodeAndEdgeInformation`. The function has no `throw`: a run that
finishes returns normally. `none` means the node loop did not finish within
`fuel` tests of its condition. The copy-and-swap after the node loop only trims
capacity and is the identity on the contents. -/
def LoadNodeAndEdgeInformation (fuel : Nat) (fs : FileSystem)
    (nodes_file edges_file : String) (self : InternalDataFacade C) :
    Option (InternalDataFacade C) :=
  let nodes_input_stream := ifstream fs nodes_file
  let edges_input_stream := ifstream fs edges_file
  match nodeLoop C.nodeInfo fuel nodes_input_stream C.nodeInfo.init self.m_coordinate_list with
  | none => none
  | some (_, _, m_coordinate_list) =>
    let r := edges_input_stream.read (List.replicate C.sizeof_unsigned '\x00') C.sizeof_unsigned
    let number_of_edges := C.decode_unsigned r.2
    let lists : EdgeLists :=
      { m_via_node_list := vectorResize 0 self.m_via_node_list number_of_edges
        m_name_ID_list := vectorResize 0 self.m_name_ID_list number_of_edges
        m_turn_instruction_list := vectorResize 0 self.m_turn_instruction_list number_of_edges }
    let out := edgeLoop C.originalEdgeData number_of_edges 0 r.1 C.originalEdgeData.init lists
    some { self with
      m_coordinate_list := m_coordinate_list
      m_via_node_list := out.2.2.m_via_node_list
      m_name_ID_list := out.2.2.m_name_ID_list
      m_turn_instruction_list := out.2.2.m_turn_instruction_list }

/-- Member `LoadRTree`. -/
def LoadRTree (fs : FileSystem) (ram_index_path file_index_path : String)
    (self : InternalDataFacade C) : Except Failure (InternalDataFacade C) :=
  match C.newStaticRTree fs ram_index_path file_index_path with
  | .error e => .error e
  | .ok t => .ok { self with m_static_rtree := some t }

/-- Public constructor `InternalDataFacade(server_config, base_path)`, started
on the fresh members. The first component lists, in order, the file-system
queries and loader calls that were begun; the second is how the constructor ended. -/
def construct (C : Collaborators) (fuel : Nat) (fs : FileSystem)
    (server_config : IniFile) (base_path : String) :
    List Event × Outcome (InternalDataFacade C) :=
  if !server_config.Holds "hsgrData" then
    ([], .raised (.OSRMException "no ram index file name in server ini"))
  else if !server_config.Holds "ramIndex" then
    ([], .raised (.OSRMException "no mem index file name in server ini"))
  else if !server_config.Holds "fileIndex" then
    ([], .raised (.OSRMException "no nodes file name in server ini"))
  else if !server_config.Holds "nodesData" then
    ([], .raised (.OSRMException "no nodes file name in server ini"))
  else if !server_config.Holds "edgesData" then
    ([], .raised (.OSRMException "no edges file name in server ini"))
  else
    let hsgr_path := C.absolute (server_config.GetParameter "hsgrData") base_path
    let ram_index_path := C.absolute (server_config.GetParameter "ramIndex") base_path
    let file_index_path := C.absolute (server_config.GetParameter "fileIndex") base_path
    let node_data_path := C.absolute (server_config.GetParameter "nodesData") base_path
    let edge_data_path := C.absolute (server_config.GetParameter "edgesData") base_path
    let _name_data_path := C.absolute (server_config.GetParameter "namesData") base_path
    let _timestamp_path := C.absolute (server_config.GetParameter "timestamp") base_path
    let t₁ := [Event.file_size node_data_path]
    match fs.file_size node_data_path with
    | .error e => (t₁, .raised e)
    | .ok node_size =>
    if 0 == node_size then (t₁, .raised (.OSRMException "nodes file is empty")) else
    let t₂ := t₁ ++ [Event.file_size edge_data_path]
    match fs.file_size edge_data_path with
    | .error e => (t₂, .raised e)
    | .ok edge_size =>
    if 0 == edge_size then (t₂, .raised (.OSRMException "edges file is empty")) else
    let t₃ := t₂ ++ [Event.LoadGraph hsgr_path]
    match LoadGraph fs hsgr_path (fresh C) with
    | .error e => (t₃, .raised e)
    | .ok self₁ =>
    let t₄ := t₃ ++ [Event.LoadNodeAndEdgeInformation node_data_path edge_data_path]
    match LoadNodeAndEdgeInformation fuel fs node_data_path edge_data_path self₁ with
    | none => (t₄, .unfinished)
    | some self₂ =>
    let t₅ := t₄ ++ [Event.LoadRTree ram_index_path file_index_path]
    match LoadRTree fs ram_index_path file_index_path self₂ with
    | .error e => (t₅, .raised e)
    | .ok self₃ =>
    (t₅ ++ [Event.LoadTimestamp hsgr_path], .returned (LoadTimestamp fs hsgr_path self₃))

/-- Member `GetCoordinateOfNode`. -/
def GetCoordinateOfNode (self : InternalDataFacade C) (id : Nat) :
    Except Failure FixedPointCoordinate :=
  match vectorAt self.m_via_node_list id with
  | .error e => .error e
  | .ok node => vectorAt self.m_coordinate_list node

/-- Member `GetTimestamp`. -/
def GetTimestamp (self : InternalDataFacade C) : String :=
  self.m_timestamp

end InternalDataFacade

/-! ## A concrete deployment

The general theorems below hold for every `Collaborators`. The instance here
fixes one, following the record layouts and file formats of the specification,
so that the functions can be run on concrete files. -/

/-- Value of a run of characters read as a little-endian unsigned integer. -/
def littleEndian : List Char → Nat
  | [] => 0
  | c :: cs => c.toNat % 256 + 256 * littleEndian cs

/-- A 32-bit pattern read as a two's-complement signed integer. -/
def toInt32 (n : Nat) : Int :=
  if n % 2 ^ 32 < 2 ^ 31 then (n % 2 ^ 32 : Nat) else ((n % 2 ^ 32 : Nat) : Int) - 2 ^ 32

/-- The characters of record `i` in a run of back-to-back records of `size`
characters each. -/
def record (size : Nat) (bytes : List Char) (i : Nat) : List Char :=
  (bytes.drop (i * size)).take size

/-- Modelled from the spec: the node record of section 4.1 (`NodeInfo` is declared
in `DataStructures/QueryNode.h`): latitude, then longitude, each a 32-bit
fixed-point integer in little-endian byte order. -/
def specNodeInfo : Layout NodeInfo where
  sizeof := 8
  sizeof_pos := by decide
  decode := fun b =>
    { lat := toInt32 (littleEndian (b.take 4))
      lon := toInt32 (littleEndian ((b.drop 4).take 4)) }
  init := List.replicate 8 '\x00'
  init_length := rfl

/-- Modelled from the spec: the original-edge record of section 4.1
(`OriginalEdgeData` is declared outside the header): via-node id, name id and
turn-instruction code, each an unsigned 32-bit integer in little-endian byte
order. -/
def specOriginalEdgeData : Layout OriginalEdgeData where
  sizeof := 12
  sizeof_pos := by decide
  decode := fun b =>
    { viaNode := littleEndian (b.take 4)
      nameID := littleEndian ((b.drop 4).take 4)
      turnInstruction := littleEndian ((b.drop 8).take 4) }
  init := List.replicate 12 '\x00'
  init_length := rfl

/-- Modelled from the spec: the topology file of section 6 (`readHSGRFromStream`
is declared in `Util/GraphLoader.h`): a 32-bit checksum, a 32-bit node count and
that many node records, a 32-bit edge count and that many edge records. A node
record is taken to be one 32-bit word and an edge record two. The records are
left in the two staging buffers. -/
def specReadHSGR (fs : FileSystem) (hsgr_path : String) :
    Except Failure (HSGR Nat (Nat × Nat)) :=
  let bytes := (ifstream fs hsgr_path).rest
  let check_sum := littleEndian (bytes.take 4)
  let number_of_nodes := littleEndian ((bytes.drop 4).take 4)
  let node_bytes := bytes.drop 8
  let node_list := (List.range number_of_nodes).map fun i => littleEndian (record 4 node_bytes i)
  let tail := node_bytes.drop (4 * number_of_nodes)
  let number_of_edges := littleEndian (tail.take 4)
  let edge_bytes := tail.drop 4
  let edge_list := (List.range number_of_edges).map fun i =>
    (littleEndian ((record 8 edge_bytes i).take 4), littleEndian ((record 8 edge_bytes i).drop 4))
  .ok
    { number_of_nodes := number_of_nodes
      node_list := node_list
      edge_list := edge_list
      check_sum := check_sum }

/-- Modelled from the spec: `boost::filesystem::absolute`, which resolves a path
relative to the base directory and leaves an absolute path alone. -/
def specAbsolute (path base : String) : String :=
  match path.data with
  | '/' :: _ => path
  | _ => base ++ "/" ++ path

/-- A deployment on a little-endian machine with 32-bit `unsigned`, the record
layouts of the specification, a graph that stores the two lists it is built
from, and a spatial index that only remembers its two paths. -/
def specCollaborators (NDEBUG : Bool) : Collaborators where
  NDEBUG := NDEBUG
  sizeof_unsigned := 4
  sizeof_unsigned_pos := by decide
  decode_unsigned := littleEndian
  nodeInfo := specNodeInfo
  originalEdgeData := specOriginalEdgeData
  StrNode := Nat
  StrEdge := Nat × Nat
  QueryGraph := List Nat × List (Nat × Nat)
  StaticRTree := String × String
  readHSGRFromStream := specReadHSGR
  newQueryGraph := fun node_list edge_list => (node_list, edge_list)
  newStaticRTree := fun _ ram_index_path file_index_path => .ok (ram_index_path, file_index_path)
  absolute := specAbsolute

/-- Modelled from the spec: a configuration is a key-value mapping (`IniFile` is
declared in `Util/IniFile.h`). `Holds` tells whether the key is present and
`GetParameter` returns its value; for an absent key this instance returns the
default-constructed, empty string. -/
def IniFile.ofList (entries : List (String × String)) : IniFile where
  Holds := fun key => (entries.lookup key).isSome
  GetParameter := fun key => (entries.lookup key).getD ""

/-- A file system given by a list of paths with their files. -/
def FileSystem.ofList (files : List (String × FileNode)) : FileSystem :=
  fun path => files.lookup path

/-- A readable file holding the given bytes. -/
def binaryFile (bytes : List Nat) : FileNode :=
  { readable := true, content := bytes.map Char.ofNat }

/-- A readable file holding the given text. -/
def textFile (text : String) : FileNode :=
  { readable := true, content := text.data }

/-- A node file of one record: latitude 1, longitude 2. -/
def oneNodeFile : FileNode :=
  binaryFile [1, 0, 0, 0, 2, 0, 0, 0]

/-- A node file of one record followed by the first three characters of another. -/
def tornNodeFile : FileNode :=
  binaryFile [1, 0, 0, 0, 2, 0, 0, 0, 5, 0, 0]

/-- An edge file that declares two records and holds both. -/
def twoEdgeFile : FileNode :=
  binaryFile [2, 0, 0, 0, 5, 0, 0, 0, 7, 0, 0, 0, 3, 0, 0, 0, 6, 0, 0, 0, 8, 0, 0, 0, 4, 0, 0, 0]

/-- An edge file that declares two records and holds only the first. -/
def shortEdgeFile : FileNode :=
  binaryFile [2, 0, 0, 0, 5, 0, 0, 0, 7, 0, 0, 0, 3, 0, 0, 0]

/-- A topology file: checksum with the characters `ABC` and a newline, one node
record, no edge record. -/
def topologyFile : FileNode :=
  binaryFile [65, 66, 67, 10, 1, 0, 0, 0, 0, 0, 0, 0, 0, 0, 0, 0]

/-- A data directory with the given node and edge files, the topology file and a
timestamp file. -/
def dataDirectory (nodes edges : FileNode) : FileSystem :=
  FileSystem.ofList
    [("/data/osrm.nodes", nodes), ("/data/osrm.edges", edges),
     ("/data/osrm.hsgr", topologyFile), ("/data/osrm.timestamp", textFile "2024-01-01\n")]

/-- The data directory with one node record and two edge records, but without a
timestamp file. -/
def unstampedDirectory : FileSystem :=
  FileSystem.ofList
    [("/data/osrm.nodes", oneNodeFile), ("/data/osrm.edges", twoEdgeFile),
     ("/data/osrm.hsgr", topologyFile)]

/-- The seven configuration entries for `dataDirectory`. -/
def fullConfig : List (String × String) :=
  [("hsgrData", "osrm.hsgr"), ("ramIndex", "osrm.ramIndex"), ("fileIndex", "osrm.fileIndex"),
   ("nodesData", "osrm.nodes"), ("edgesData", "osrm.edges"), ("namesData", "osrm.names"),
   ("timestamp", "osrm.timestamp")]

/-- The configuration `fullConfig` with the entry for one key left out. -/
def configWithout (key : String) : IniFile :=
  IniFile.ofList (fullConfig.filter (fun entry => entry.1 != key))

/-- Whether a run returned. -/
def Outcome.isReturned {α : Type} : Outcome α → Bool
  | .returned _ => true
  | _ => false

/-! ## Auxiliary definitions for the statements -/

open InternalDataFacade

/-- The keys the specification requires of a configuration. -/
def requiredKeys : List String :=
  ["hsgrData", "ramIndex", "fileIndex", "nodesData", "edgesData", "namesData", "timestamp"]

/-- The keys whose presence the constructor tests with `Holds`. -/
def checkedKeys : List String :=
  ["hsgrData", "ramIndex", "fileIndex", "nodesData", "edgesData"]

/-- The messages of the exceptions thrown for an absent key. -/
def configMessages : List String :=
  ["no ram index file name in server ini", "no mem index file name in server ini",
   "no nodes file name in server ini", "no edges file name in server ini"]

/-- The first line of a text: its characters before the first newline. -/
def firstLine (content : List Char) : List Char :=
  content.takeWhile (· != '\n')

/-- The coordinate that the node loop appends when `current_node` has the
given object representation. -/
def coordinateOf (N : Layout NodeInfo) (buf : List Char) : FixedPointCoordinate :=
  FixedPointCoordinate.mk (N.decode buf).lat (N.decode buf).lon

/-- The edge half of `LoadNodeAndEdgeInformation` on its own: the three vectors
after the count was read, the vectors resized and the edge loop run. -/
def edgePhase {C : Collaborators} (fs : FileSystem) (edges_file : String)
    (self : InternalDataFacade C) : EdgeLists :=
  let r := (ifstream fs edges_file).read (List.replicate C.sizeof_unsigned '\x00')
    C.sizeof_unsigned
  (edgeLoop C.originalEdgeData (C.decode_unsigned r.2) 0 r.1 C.originalEdgeData.init
    { m_via_node_list := vectorResize 0 self.m_via_node_list (C.decode_unsigned r.2)
      m_name_ID_list := vectorResize 0 self.m_name_ID_list (C.decode_unsigned r.2)
      m_turn_instruction_list :=
        vectorResize 0 self.m_turn_instruction_list (C.decode_unsigned r.2) }).2.2

/-- One of the three metadata vectors followed on its own through the edge
loop: `field` picks the member of the record that is stored in it. -/
def fieldLoop (E : Layout OriginalEdgeData) (field : OriginalEdgeData → Nat) :
    Nat → Nat → IStream → List Char → List Nat → List Nat
  | 0, _, _, _, l => l
  | todo + 1, i, s, cur, l =>
    fieldLoop E field todo (i + 1) (s.read cur E.sizeof).1 (s.read cur E.sizeof).2
      (l.set i (field (E.decode (s.read cur E.sizeof).2)))

/-! ## The timestamp loader -/

theorem String_isEmpty_mk (l : List Char) : (String.mk l).isEmpty = l.isEmpty := by
  cases l with
  | nil => rfl
  | cons a l =>
    have h : ¬ (String.mk (a :: l)).isEmpty = true := by
      rw [String.isEmpty_iff]
      intro h
      exact List.cons_ne_nil a l (congrArg String.data h)
    simpa using h

theorem getline_good (rest : List Char) (str : String) :
    ((IStream.mk rest false false).getline str).2 = String.mk (firstLine rest) := by
  unfold IStream.getline firstLine
  simp only [IStream.good, Bool.not_false, Bool.and_self, if_true]
  split <;> rfl

theorem LoadTimestamp_m_timestamp {C : Collaborators} (fs : FileSystem) (path : String)
    (self : InternalDataFacade C) :
    (LoadTimestamp fs path self).m_timestamp =
      (let read :=
        if fs.fileExists path then ((ifstream fs path).getline self.m_timestamp).2
        else self.m_timestamp
       let named := if read.isEmpty then "n/a" else read
       if 25 < named.length then stringResize named 25 else named) := by
  unfold LoadTimestamp
  simp only
  split <;> split <;> split <;> simp_all

/-- The value `LoadTimestamp` leaves in an initially empty `m_timestamp`. -/
theorem LoadTimestamp_eq {C : Collaborators} (fs : FileSystem) (path : String)
    (self : InternalDataFacade C) (h : self.m_timestamp = "") :
    (LoadTimestamp fs path self).m_timestamp =
      (match fs path with
       | none => "n/a"
       | some f =>
         if !f.readable || (firstLine f.content).isEmpty then "n/a"
         else if (firstLine f.content).length ≤ 25 then String.mk (firstLine f.content)
         else String.mk ((firstLine f.content).take 25)) := by
  rw [LoadTimestamp_m_timestamp, h]
  cases hf : fs path with
  | none =>
    simp [FileSystem.fileExists, hf]
    decide
  | some f =>
    cases hr : f.readable with
    | false =>
      simp [FileSystem.fileExists, hf, ifstream, hr, IStream.getline, IStream.good]
      decide
    | true =>
      simp only [FileSystem.fileExists, hf, ifstream, hr, getline_good, Option.isSome_some,
        if_true, String_isEmpty_mk, Bool.not_true, Bool.false_or]
      cases hl : firstLine f.content with
      | nil =>
        simp only [List.isEmpty_nil, if_true]
        decide
      | cons a l =>
        simp only [List.isEmpty_cons, String.length, stringResize, List.length_cons,
          Bool.false_eq_true, if_false]
        by_cases h1 : 25 < l.length + 1
        · have h2 : 25 - (l.length + 1) = 0 := by omega
          rw [if_pos h1, if_neg (by omega), h2]
          simp
        · rw [if_neg h1, if_pos (by omega)]

/-- C5: started from an empty `m_timestamp`, `LoadTimestamp` leaves `"n/a"` when the
file does not exist, cannot be opened, or has an empty first line; otherwise it
leaves the first line when that has at most 25 characters and its first 25
characters when it is longer. The result is never empty and never longer than
25 characters, and the stamp `"2024-01-01T00:00:00Z-extra-chars"` loads as
`"2024-01-01T00:00:00Z-extr"`. -/
theorem LoadTimestamp_from_empty {C : Collaborators} (fs : FileSystem)
    (timestamp_path : String) (self : InternalDataFacade C) (h : self.m_timestamp = "") :
    (LoadTimestamp fs timestamp_path self).m_timestamp =
        (match fs timestamp_path with
         | none => "n/a"
         | some f =>
           if !f.readable || (firstLine f.content).isEmpty then "n/a"
           else if (firstLine f.content).length ≤ 25 then String.mk (firstLine f.content)
           else String.mk ((firstLine f.content).take 25))
      ∧ (LoadTimestamp fs timestamp_path self).m_timestamp ≠ ""
      ∧ (LoadTimestamp fs timestamp_path self).m_timestamp.length ≤ 25
      ∧ (fs timestamp_path = some (textFile "2024-01-01T00:00:00Z-extra-chars") →
          (LoadTimestamp fs timestamp_path self).m_timestamp = "2024-01-01T00:00:00Z-extr") := by
  have key := LoadTimestamp_eq fs timestamp_path self h
  refine ⟨key, ?_, ?_, ?_⟩
  · rw [key]
    cases fs timestamp_path with
    | none => decide
    | some f =>
      simp only
      split
      · decide
      · rename_i h1
        have h2 : firstLine f.content ≠ [] := by
          intro h3
          simp [h3] at h1
        split <;> intro h3
        · exact h2 (congrArg String.data h3)
        · have h4 := congrArg String.data h3
          have h5 : (firstLine f.content).take 25 = [] := h4
          cases hl : firstLine f.content with
          | nil => exact h2 hl
          | cons a l => simp [hl] at h5
  · rw [key]
    cases fs timestamp_path with
    | none => decide
    | some f =>
      simp only
      split
      · decide
      · split
        · assumption
        · simp only [String.length, List.length_take]
          omega
  · intro hf
    rw [key, hf]
    decide

/-- The stamp of C5 in a file of its own, with a second line after it. -/
theorem LoadTimestamp_from_empty_witness :
    (fresh (specCollaborators true)).m_timestamp = ""
      ∧ (LoadTimestamp
          (FileSystem.ofList [("/data/stamp", textFile "2024-01-01T00:00:00Z-extra-chars\nmore")])
          "/data/stamp" (fresh (specCollaborators true))).m_timestamp
        = "2024-01-01T00:00:00Z-extr" :=
  ⟨rfl, by
    rw [(LoadTimestamp_from_empty
      (FileSystem.ofList [("/data/stamp", textFile "2024-01-01T00:00:00Z-extra-chars\nmore")])
      "/data/stamp" (fresh (specCollaborators true)) rfl).1]
    decide⟩

/-! ## Coordinate lookup -/

/-- C4: `GetCoordinateOfNode(id)` returns `m_coordinate_list[m_via_node_list[id]]` when
`id` is an index of `m_via_node_list` and the via node found there is an index of
`m_coordinate_list`; in every other case, in particular for every `id` at or beyond
the length of `m_via_node_list`, it throws `std::out_of_range`. No element outside
either sequence is read. -/
theorem GetCoordinateOfNode_checked {C : Collaborators} (self : InternalDataFacade C)
    (id : Nat) :
    self.GetCoordinateOfNode id =
        (if h₁ : id < self.m_via_node_list.length then
          if h₂ : self.m_via_node_list[id] < self.m_coordinate_list.length then
            .ok self.m_coordinate_list[self.m_via_node_list[id]]
          else .error .out_of_range
        else .error .out_of_range)
      ∧ (self.m_via_node_list.length ≤ id →
          self.GetCoordinateOfNode id = .error .out_of_range) := by
  have key : self.GetCoordinateOfNode id =
      (if h₁ : id < self.m_via_node_list.length then
        if h₂ : self.m_via_node_list[id] < self.m_coordinate_list.length then
          .ok self.m_coordinate_list[self.m_via_node_list[id]]
        else .error .out_of_range
      else .error .out_of_range) := by
    unfold GetCoordinateOfNode vectorAt
    by_cases h₁ : id < self.m_via_node_list.length
    · rw [dif_pos h₁, List.get?_eq_get h₁]
      by_cases h₂ : self.m_via_node_list[id] < self.m_coordinate_list.length
      · rw [dif_pos h₂]
        simp only [List.get_eq_getElem]
        rw [List.get?_eq_get h₂]
        rfl
      · rw [dif_neg h₂]
        simp only [List.get_eq_getElem]
        rw [List.get?_eq_none.mpr (by omega)]
    · rw [dif_neg h₁, List.get?_eq_none.mpr (by omega)]
  refine ⟨key, fun h => ?_⟩
  rw [key, dif_neg (by omega)]

/-! ## The node loop -/

theorem read_full (rest buf : List Char) (n : Nat) (h : n ≤ rest.length)
    (hb : buf.length = n) :
    (IStream.mk rest false false).read buf n
      = ({ rest := rest.drop n, eofbit := false, failbit := false }, rest.take n) := by
  unfold IStream.read
  have h1 : ¬ (rest.take n).length < n := by
    rw [List.length_take]; omega
  have h2 : buf.drop n = [] := List.drop_of_length_le (by omega)
  simp only [IStream.good, Bool.not_false, Bool.and_self, if_true, if_neg h1, h2,
    List.append_nil]

theorem read_short (rest buf : List Char) (n : Nat) (h : rest.length < n) :
    (IStream.mk rest false false).read buf n
      = ({ rest := [], eofbit := true, failbit := true }, rest ++ buf.drop rest.length) := by
  unfold IStream.read
  have h0 : rest.take n = rest := List.take_of_length_le (by omega)
  simp only [IStream.good, Bool.not_false, Bool.and_self, if_true, h0, if_pos h]

theorem record_zero (size : Nat) (bytes : List Char) :
    record size bytes 0 = bytes.take size := by
  simp [record]

theorem record_succ (size : Nat) (bytes : List Char) (i : Nat) :
    record size bytes (i + 1) = record size (bytes.drop size) i := by
  unfold record
  rw [List.drop_drop]
  congr 2
  rw [Nat.add_mul, Nat.one_mul, Nat.add_comm]

theorem nodeLoop_records (N : Layout NodeInfo) :
    ∀ (q : Nat) (rest cur : List Char) (acc : List FixedPointCoordinate) (fuel : Nat),
      rest.length / N.sizeof = q → cur.length = N.sizeof → q + 2 ≤ fuel →
      nodeLoop N fuel { rest := rest, eofbit := false, failbit := false } cur acc
        = some ({ rest := [], eofbit := true, failbit := true },
            rest.drop (q * N.sizeof)
              ++ (if q = 0 then cur else record N.sizeof rest (q - 1)).drop
                  (rest.length - q * N.sizeof),
            acc ++ (List.range q).map (fun i => coordinateOf N (record N.sizeof rest i))
              ++ [coordinateOf N (rest.drop (q * N.sizeof)
                  ++ (if q = 0 then cur else record N.sizeof rest (q - 1)).drop
                      (rest.length - q * N.sizeof))]) := by
  intro q
  induction q with
  | zero =>
    intro rest cur acc fuel hq hc hf
    have hlt : rest.length < N.sizeof := (Nat.div_eq_zero_iff N.sizeof_pos).mp hq
    obtain ⟨f, rfl⟩ : ∃ f, fuel = f + 2 := ⟨fuel - 2, by omega⟩
    simp [nodeLoop, IStream.eof, read_short _ _ _ hlt, coordinateOf]
  | succ q ih =>
    intro rest cur acc fuel hq hc hf
    have hge : N.sizeof ≤ rest.length := by
      by_contra hlt
      have := Nat.div_eq_of_lt (Nat.lt_of_not_le hlt)
      omega
    obtain ⟨f, rfl⟩ : ∃ f, fuel = f + 1 := ⟨fuel - 1, by omega⟩
    have hq2 : (rest.drop N.sizeof).length / N.sizeof = q := by
      have := Nat.sub_mul_div rest.length N.sizeof 1 (by omega)
      rw [List.length_drop]
      rw [Nat.mul_one] at this
      omega
    have hc2 : (rest.take N.sizeof).length = N.sizeof := List.length_take_of_le hge
    have hmul : (q + 1) * N.sizeof ≤ rest.length := by
      have := Nat.div_mul_le_self rest.length N.sizeof
      rw [hq] at this
      exact this
    have hprev : (if q = 0 then rest.take N.sizeof
          else record N.sizeof (rest.drop N.sizeof) (q - 1))
        = record N.sizeof rest q := by
      cases q with
      | zero => simp [record_zero]
      | succ p => simp [record_succ]
    have hlen : (rest.drop N.sizeof).length - q * N.sizeof
        = rest.length - (q + 1) * N.sizeof := by
      rw [List.length_drop, Nat.add_mul, Nat.one_mul]
      omega
    have hdrop : (rest.drop N.sizeof).drop (q * N.sizeof) = rest.drop ((q + 1) * N.sizeof) := by
      rw [List.drop_drop]
      congr 1
      rw [Nat.add_mul, Nat.one_mul, Nat.add_comm]
    have hmap : [coordinateOf N (rest.take N.sizeof)]
          ++ (List.range q).map (fun i => coordinateOf N (record N.sizeof (rest.drop N.sizeof) i))
        = (List.range (q + 1)).map (fun i => coordinateOf N (record N.sizeof rest i)) := by
      rw [List.range_succ_eq_map, List.map_cons, List.map_map, record_zero]
      simp only [List.singleton_append, List.cons.injEq, true_and]
      apply List.map_congr_left
      intro i _
      simp [record_succ]
    unfold nodeLoop
    simp only [IStream.eof, Bool.false_eq_true, if_false, read_full _ _ _ hge hc]
    rw [ih (rest.drop N.sizeof) (rest.take N.sizeof) _ f hq2 hc2 (by omega)]
    rw [hprev, hlen, hdrop, List.append_assoc acc, ← coordinateOf, hmap]
    simp

theorem LoadNodeAndEdgeInformation_eq {C : Collaborators} (fuel : Nat) (fs : FileSystem)
    (nodes_file edges_file : String) (self : InternalDataFacade C) :
    LoadNodeAndEdgeInformation fuel fs nodes_file edges_file self
      = (nodeLoop C.nodeInfo fuel (ifstream fs nodes_file) C.nodeInfo.init
          self.m_coordinate_list).map
        (fun out => { self with
          m_coordinate_list := out.2.2
          m_via_node_list := (edgePhase fs edges_file self).m_via_node_list
          m_name_ID_list := (edgePhase fs edges_file self).m_name_ID_list
          m_turn_instruction_list := (edgePhase fs edges_file self).m_turn_instruction_list }) := by
  unfold LoadNodeAndEdgeInformation edgePhase
  dsimp only
  generalize nodeLoop C.nodeInfo fuel (ifstream fs nodes_file) C.nodeInfo.init
    self.m_coordinate_list = o
  rcases o with _ | ⟨s, cur, coords⟩ <;> rfl

theorem ifstream_readable (fs : FileSystem) (path : String) (content : List Char)
    (h : fs path = some { readable := true, content := content }) :
    ifstream fs path = { rest := content, eofbit := false, failbit := false } := by
  simp [ifstream, h]

/-- On a node file that can be opened, the loader returns once the fuel covers one
test of the loop condition per complete record and two more, and the coordinate
list has grown by one entry per complete record and one further entry. -/
theorem LoadNodeAndEdgeInformation_coordinates {C : Collaborators} (fuel : Nat)
    (fs : FileSystem) (nodes_file edges_file : String) (self : InternalDataFacade C)
    (nodes : List Char)
    (hfile : fs nodes_file = some { readable := true, content := nodes })
    (hfuel : nodes.length / C.nodeInfo.sizeof + 2 ≤ fuel) :
    ∃ st last, LoadNodeAndEdgeInformation fuel fs nodes_file edges_file self = some st
      ∧ st.m_coordinate_list
        = self.m_coordinate_list
          ++ (List.range (nodes.length / C.nodeInfo.sizeof)).map
              (fun i => coordinateOf C.nodeInfo (record C.nodeInfo.sizeof nodes i))
          ++ [coordinateOf C.nodeInfo last]
      ∧ last = nodes.drop (nodes.length / C.nodeInfo.sizeof * C.nodeInfo.sizeof)
          ++ (if nodes.length / C.nodeInfo.sizeof = 0 then C.nodeInfo.init
              else record C.nodeInfo.sizeof nodes (nodes.length / C.nodeInfo.sizeof - 1)).drop
                (nodes.length - nodes.length / C.nodeInfo.sizeof * C.nodeInfo.sizeof) := by
  rw [LoadNodeAndEdgeInformation_eq, ifstream_readable fs nodes_file nodes hfile,
    nodeLoop_records C.nodeInfo _ nodes C.nodeInfo.init self.m_coordinate_list fuel rfl
      C.nodeInfo.init_length hfuel]
  exact ⟨_, _, rfl, rfl, rfl⟩

/-- C1 (as the code behaves): on a node file of exactly `k ≥ 1` records, loaded into an
empty `m_coordinate_list`, `LoadNodeAndEdgeInformation` returns with `k + 1`
coordinates, not `k`: entry `i < k` is the coordinate of record `i`, and entry `k`
repeats the coordinate of the last record, because the loop tests `eof()` before the
read that reaches the end of the file. -/
theorem LoadNodeAndEdgeInformation_extra_coordinate {C : Collaborators} (fuel : Nat)
    (fs : FileSystem) (nodes_file edges_file : String) (self : InternalDataFacade C)
    (nodes : List Char) (k : Nat)
    (hfile : fs nodes_file = some { readable := true, content := nodes })
    (hk : 1 ≤ k) (hsize : nodes.length = k * C.nodeInfo.sizeof)
    (hempty : self.m_coordinate_list = []) (hfuel : k + 2 ≤ fuel) :
    ∃ st, LoadNodeAndEdgeInformation fuel fs nodes_file edges_file self = some st
      ∧ st.m_coordinate_list.length = k + 1
      ∧ (∀ i, i < k → st.m_coordinate_list[i]?
          = some (coordinateOf C.nodeInfo (record C.nodeInfo.sizeof nodes i)))
      ∧ st.m_coordinate_list[k]?
          = some (coordinateOf C.nodeInfo (record C.nodeInfo.sizeof nodes (k - 1))) := by
  have hq : nodes.length / C.nodeInfo.sizeof = k := by
    rw [hsize, Nat.mul_div_cancel k C.nodeInfo.sizeof_pos]
  obtain ⟨st, last, hst, hlist, hlast⟩ := LoadNodeAndEdgeInformation_coordinates fuel fs
    nodes_file edges_file self nodes hfile (by omega)
  rw [hq, hempty, List.nil_append] at hlist
  rw [hq] at hlast
  have hlast2 : last = record C.nodeInfo.sizeof nodes (k - 1) := by
    rw [hlast, if_neg (by omega), ← hsize, Nat.sub_self, List.drop_zero,
      List.drop_of_length_le (Nat.le_refl _), List.nil_append]
  refine ⟨st, hst, ?_, ?_, ?_⟩
  · rw [hlist]; simp
  · intro i hi
    rw [hlist, List.getElem?_append_left (by simp [hi]), List.getElem?_map,
      List.getElem?_range hi]
    rfl
  · rw [hlist, List.getElem?_append_right (by simp), hlast2]
    simp

/-- One record loads as two coordinates. -/
theorem LoadNodeAndEdgeInformation_extra_coordinate_witness :
    ∃ st, LoadNodeAndEdgeInformation 3 (dataDirectory oneNodeFile twoEdgeFile)
        "/data/osrm.nodes" "/data/osrm.edges" (fresh (specCollaborators true)) = some st
      ∧ st.m_coordinate_list.length = 2
      ∧ st.m_coordinate_list[0]? = some { lat := 1, lon := 2 }
      ∧ st.m_coordinate_list[1]? = some { lat := 1, lon := 2 } := by
  obtain ⟨st, h1, h2, h3, h4⟩ := LoadNodeAndEdgeInformation_extra_coordinate
    (C := specCollaborators true) 3 (dataDirectory oneNodeFile twoEdgeFile)
    "/data/osrm.nodes" "/data/osrm.edges" (fresh (specCollaborators true))
    oneNodeFile.content 1 (by rfl) (by decide) (by rfl) (by rfl) (by decide)
  refine ⟨st, h1, h2, ?_, ?_⟩
  · rw [h3 0 (by decide)]; decide
  · rw [h4]; decide

/-! ## The edge loop -/

theorem edgeLoop_via (E : Layout OriginalEdgeData) :
    ∀ (todo i : Nat) (s : IStream) (cur : List Char) (lists : EdgeLists),
      (edgeLoop E todo i s cur lists).2.2.m_via_node_list
        = fieldLoop E (fun e => e.viaNode) todo i s cur lists.m_via_node_list := by
  intro todo
  induction todo with
  | zero => intros; rfl
  | succ todo ih => intro i s cur lists; simp only [edgeLoop, fieldLoop]; rw [ih]

theorem edgeLoop_name (E : Layout OriginalEdgeData) :
    ∀ (todo i : Nat) (s : IStream) (cur : List Char) (lists : EdgeLists),
      (edgeLoop E todo i s cur lists).2.2.m_name_ID_list
        = fieldLoop E (fun e => e.nameID) todo i s cur lists.m_name_ID_list := by
  intro todo
  induction todo with
  | zero => intros; rfl
  | succ todo ih => intro i s cur lists; simp only [edgeLoop, fieldLoop]; rw [ih]

theorem edgeLoop_turn (E : Layout OriginalEdgeData) :
    ∀ (todo i : Nat) (s : IStream) (cur : List Char) (lists : EdgeLists),
      (edgeLoop E todo i s cur lists).2.2.m_turn_instruction_list
        = fieldLoop E (fun e => e.turnInstruction) todo i s cur
            lists.m_turn_instruction_list := by
  intro todo
  induction todo with
  | zero => intros; rfl
  | succ todo ih => intro i s cur lists; simp only [edgeLoop, fieldLoop]; rw [ih]

theorem fieldLoop_length (E : Layout OriginalEdgeData) (field : OriginalEdgeData → Nat) :
    ∀ (todo i : Nat) (s : IStream) (cur : List Char) (l : List Nat),
      (fieldLoop E field todo i s cur l).length = l.length := by
  intro todo
  induction todo with
  | zero => intros; rfl
  | succ todo ih => intro i s cur l; simp only [fieldLoop]; rw [ih, List.length_set]

theorem fieldLoop_below (E : Layout OriginalEdgeData) (field : OriginalEdgeData → Nat) :
    ∀ (todo i : Nat) (s : IStream) (cur : List Char) (l : List Nat) (j : Nat), j < i →
      (fieldLoop E field todo i s cur l)[j]? = l[j]? := by
  intro todo
  induction todo with
  | zero => intros; rfl
  | succ todo ih =>
    intro i s cur l j hj
    simp only [fieldLoop]
    rw [ih _ _ _ _ j (by omega), List.getElem?_set_ne (by omega)]

/-- While complete records remain in a good stream, round `j` of the edge loop
stores the field of the record it has just read at index `j`, and no later round
touches that index. -/
theorem fieldLoop_records (E : Layout OriginalEdgeData) (field : OriginalEdgeData → Nat) :
    ∀ (todo i : Nat) (rest cur : List Char) (l : List Nat) (j : Nat),
      cur.length = E.sizeof → i ≤ j → j < i + todo → j < l.length →
      (j - i + 1) * E.sizeof ≤ rest.length →
      (fieldLoop E field todo i { rest := rest, eofbit := false, failbit := false } cur l)[j]?
        = some (field (E.decode (record E.sizeof rest (j - i)))) := by
  intro todo
  induction todo with
  | zero => intro i rest cur l j _ h1 h2; omega
  | succ todo ih =>
    intro i rest cur l j hc h1 h2 h3 h4
    have hge : E.sizeof ≤ rest.length := by
      have : 1 * E.sizeof ≤ (j - i + 1) * E.sizeof := Nat.mul_le_mul_right _ (by omega)
      omega
    simp only [fieldLoop, read_full _ _ _ hge hc]
    by_cases hij : j = i
    · subst hij
      rw [fieldLoop_below _ _ _ _ _ _ _ _ (by omega), List.getElem?_set_self h3,
        Nat.sub_self, record_zero]
    · have hji : j - i = (j - (i + 1)) + 1 := by omega
      rw [ih (i + 1) (rest.drop E.sizeof) (rest.take E.sizeof) _ j
        (List.length_take_of_le hge) (by omega) (by omega) (by simpa using h3) ?_,
        hji, record_succ]
      rw [List.length_drop]
      rw [hji, Nat.add_mul, Nat.one_mul] at h4
      omega

theorem vectorResize_length {α : Type} (zero : α) (v : List α) (n : Nat) :
    (vectorResize zero v n).length = n := by
  simp only [vectorResize, List.length_append, List.length_take, List.length_replicate]
  omega

theorem edgePhase_readable {C : Collaborators} (fs : FileSystem) (edges_file : String)
    (self : InternalDataFacade C) (edges : List Char)
    (hfile : fs edges_file = some { readable := true, content := edges })
    (hcount : C.sizeof_unsigned ≤ edges.length) :
    edgePhase fs edges_file self
      = (edgeLoop C.originalEdgeData (C.decode_unsigned (edges.take C.sizeof_unsigned)) 0
          { rest := edges.drop C.sizeof_unsigned, eofbit := false, failbit := false }
          C.originalEdgeData.init
          { m_via_node_list := vectorResize 0 self.m_via_node_list
              (C.decode_unsigned (edges.take C.sizeof_unsigned))
            m_name_ID_list := vectorResize 0 self.m_name_ID_list
              (C.decode_unsigned (edges.take C.sizeof_unsigned))
            m_turn_instruction_list := vectorResize 0 self.m_turn_instruction_list
              (C.decode_unsigned (edges.take C.sizeof_unsigned)) }).2.2 := by
  unfold edgePhase
  rw [ifstream_readable fs edges_file edges hfile,
    read_full edges _ C.sizeof_unsigned hcount (List.length_replicate _ _)]

/-- What the edge half leaves in the three vectors when the file opens and holds a
count: each has the declared length, and every index whose record lies completely
in the file holds the fields of that record. -/
theorem edgePhase_records {C : Collaborators} (fs : FileSystem) (edges_file : String)
    (self : InternalDataFacade C) (edges : List Char) (n : Nat)
    (hfile : fs edges_file = some { readable := true, content := edges })
    (hcount : C.sizeof_unsigned ≤ edges.length)
    (hn : C.decode_unsigned (edges.take C.sizeof_unsigned) = n) :
    (edgePhase fs edges_file self).m_via_node_list.length = n
      ∧ (edgePhase fs edges_file self).m_name_ID_list.length = n
      ∧ (edgePhase fs edges_file self).m_turn_instruction_list.length = n
      ∧ ∀ i, i < n →
          (i + 1) * C.originalEdgeData.sizeof ≤ (edges.drop C.sizeof_unsigned).length →
          (edgePhase fs edges_file self).m_via_node_list[i]?
              = some (C.originalEdgeData.decode
                  (record C.originalEdgeData.sizeof (edges.drop C.sizeof_unsigned) i)).viaNode
            ∧ (edgePhase fs edges_file self).m_name_ID_list[i]?
              = some (C.originalEdgeData.decode
                  (record C.originalEdgeData.sizeof (edges.drop C.sizeof_unsigned) i)).nameID
            ∧ (edgePhase fs edges_file self).m_turn_instruction_list[i]?
              = some (C.originalEdgeData.decode
                  (record C.originalEdgeData.sizeof (edges.drop C.sizeof_unsigned) i)).turnInstruction := by
  rw [edgePhase_readable fs edges_file self edges hfile hcount, hn, edgeLoop_via,
    edgeLoop_name, edgeLoop_turn]
  simp only [fieldLoop_length, vectorResize_length, true_and]
  intro i hi hrec
  have hlen := C.originalEdgeData.init_length
  refine ⟨?_, ?_, ?_⟩ <;>
    exact fieldLoop_records _ _ n 0 _ _ _ i hlen (Nat.zero_le i) (by omega)
      (by rw [vectorResize_length]; exact hi) (by simpa using hrec)

/-- C3: when the edge file opens, holds a count `n` and at least `n` records after
it, every run of `LoadNodeAndEdgeInformation` that returns leaves `m_via_node_list`,
`m_name_ID_list` and `m_turn_instruction_list` with length exactly `n`, entry `i` of
each being the `viaNode`, `nameID` and `turnInstruction` of record `i`; and the
function does return when the node file opens and the fuel covers its records. -/
theorem LoadNodeAndEdgeInformation_edge_lists {C : Collaborators} (fuel : Nat)
    (fs : FileSystem) (nodes_file edges_file : String) (self : InternalDataFacade C)
    (edges : List Char) (n : Nat)
    (hfile : fs edges_file = some { readable := true, content := edges })
    (hcount : C.sizeof_unsigned ≤ edges.length)
    (hn : C.decode_unsigned (edges.take C.sizeof_unsigned) = n)
    (hrecords : n * C.originalEdgeData.sizeof ≤ (edges.drop C.sizeof_unsigned).length) :
    (∀ st, LoadNodeAndEdgeInformation fuel fs nodes_file edges_file self = some st →
        st.m_via_node_list.length = n
          ∧ st.m_name_ID_list.length = n
          ∧ st.m_turn_instruction_list.length = n
          ∧ ∀ i, i < n →
              st.m_via_node_list[i]?
                  = some (C.originalEdgeData.decode
                      (record C.originalEdgeData.sizeof (edges.drop C.sizeof_unsigned) i)).viaNode
                ∧ st.m_name_ID_list[i]?
                  = some (C.originalEdgeData.decode
                      (record C.originalEdgeData.sizeof (edges.drop C.sizeof_unsigned) i)).nameID
                ∧ st.m_turn_instruction_list[i]?
                  = some (C.originalEdgeData.decode
                      (record C.originalEdgeData.sizeof (edges.drop C.sizeof_unsigned)
                        i)).turnInstruction)
      ∧ (∀ nodes, fs nodes_file = some { readable := true, content := nodes } →
          nodes.length / C.nodeInfo.sizeof + 2 ≤ fuel →
          ∃ st, LoadNodeAndEdgeInformation fuel fs nodes_file edges_file self = some st) := by
  constructor
  · intro st hst
    rw [LoadNodeAndEdgeInformation_eq] at hst
    obtain ⟨out, -, rfl⟩ := Option.map_eq_some'.mp hst
    obtain ⟨h1, h2, h3, h4⟩ := edgePhase_records fs edges_file self edges n hfile hcount hn
    refine ⟨h1, h2, h3, fun i hi => h4 i hi ?_⟩
    exact Nat.le_trans (Nat.mul_le_mul_right _ (by omega)) hrecords
  · intro nodes hnodes hfuel
    obtain ⟨st, _, hst, _⟩ := LoadNodeAndEdgeInformation_coordinates fuel fs nodes_file
      edges_file self nodes hnodes hfuel
    exact ⟨st, hst⟩

/-- Two declared records, both present. -/
theorem LoadNodeAndEdgeInformation_edge_lists_witness :
    ∃ st, LoadNodeAndEdgeInformation 3 (dataDirectory oneNodeFile twoEdgeFile)
        "/data/osrm.nodes" "/data/osrm.edges" (fresh (specCollaborators true)) = some st
      ∧ st.m_via_node_list.length = 2
      ∧ st.m_name_ID_list.length = 2
      ∧ st.m_turn_instruction_list.length = 2
      ∧ st.m_via_node_list[1]? = some 6
      ∧ st.m_name_ID_list[1]? = some 8
      ∧ st.m_turn_instruction_list[1]? = some 4 := by
  have key := LoadNodeAndEdgeInformation_edge_lists (C := specCollaborators true) 3
    (dataDirectory oneNodeFile twoEdgeFile) "/data/osrm.nodes" "/data/osrm.edges"
    (fresh (specCollaborators true)) twoEdgeFile.content 2 (by rfl) (by decide) (by decide)
    (by decide)
  obtain ⟨st, hst⟩ := key.2 oneNodeFile.content (by rfl) (by decide)
  obtain ⟨h1, h2, h3, h4⟩ := key.1 st hst
  obtain ⟨h5, h6, h7⟩ := h4 1 (by decide)
  refine ⟨st, hst, h1, h2, h3, ?_, ?_, ?_⟩
  · rw [h5]; decide
  · rw [h6]; decide
  · rw [h7]; decide

/-- C2 (as stated, refuted): an edge file that declares two records and holds one
is loaded without any error; the three sequences have length two and their second
entries repeat the only record. -/
theorem LoadNodeAndEdgeInformation_short_edges_returns :
    littleEndian (shortEdgeFile.content.take 4) = 2
      ∧ (shortEdgeFile.content.drop 4).length / specOriginalEdgeData.sizeof = 1
      ∧ (LoadNodeAndEdgeInformation 3 (dataDirectory oneNodeFile shortEdgeFile)
            "/data/osrm.nodes" "/data/osrm.edges" (fresh (specCollaborators true))).map
          (fun st => (st.m_via_node_list, st.m_name_ID_list, st.m_turn_instruction_list))
        = some ([5, 5], [7, 7], [3, 3]) := by
  decide

/-- C2 (amended): when the edge file opens and holds a count `n` but only `m < n`
complete records after it, `LoadNodeAndEdgeInformation` raises no error. Every run
that returns leaves the three sequences with length exactly `n`, entry `i < m` of
each being the field of record `i`; and the function does return when the node
file opens and the fuel covers its records. -/
theorem LoadNodeAndEdgeInformation_short_edges {C : Collaborators} (fuel : Nat)
    (fs : FileSystem) (nodes_file edges_file : String) (self : InternalDataFacade C)
    (edges : List Char) (n m : Nat)
    (hfile : fs edges_file = some { readable := true, content := edges })
    (hcount : C.sizeof_unsigned ≤ edges.length)
    (hn : C.decode_unsigned (edges.take C.sizeof_unsigned) = n)
    (hm : (edges.drop C.sizeof_unsigned).length / C.originalEdgeData.sizeof = m)
    (hshort : m < n) :
    (∀ st, LoadNodeAndEdgeInformation fuel fs nodes_file edges_file self = some st →
        st.m_via_node_list.length = n
          ∧ st.m_name_ID_list.length = n
          ∧ st.m_turn_instruction_list.length = n
          ∧ ∀ i, i < m →
              st.m_via_node_list[i]?
                  = some (C.originalEdgeData.decode
                      (record C.originalEdgeData.sizeof (edges.drop C.sizeof_unsigned) i)).viaNode
                ∧ st.m_name_ID_list[i]?
                  = some (C.originalEdgeData.decode
                      (record C.originalEdgeData.sizeof (edges.drop C.sizeof_unsigned) i)).nameID
                ∧ st.m_turn_instruction_list[i]?
                  = some (C.originalEdgeData.decode
                      (record C.originalEdgeData.sizeof (edges.drop C.sizeof_unsigned)
                        i)).turnInstruction)
      ∧ (∀ nodes, fs nodes_file = some { readable := true, content := nodes } →
          nodes.length / C.nodeInfo.sizeof + 2 ≤ fuel →
          ∃ st, LoadNodeAndEdgeInformation fuel fs nodes_file edges_file self = some st) := by
  constructor
  · intro st hst
    rw [LoadNodeAndEdgeInformation_eq] at hst
    obtain ⟨out, -, rfl⟩ := Option.map_eq_some'.mp hst
    obtain ⟨h1, h2, h3, h4⟩ := edgePhase_records fs edges_file self edges n hfile hcount hn
    refine ⟨h1, h2, h3, fun i hi => h4 i (by omega) ?_⟩
    have h5 := Nat.div_mul_le_self (edges.drop C.sizeof_unsigned).length
      C.originalEdgeData.sizeof
    rw [hm] at h5
    exact Nat.le_trans (Nat.mul_le_mul_right _ (by omega)) h5
  · intro nodes hnodes hfuel
    obtain ⟨st, _, hst, _⟩ := LoadNodeAndEdgeInformation_coordinates fuel fs nodes_file
      edges_file self nodes hnodes hfuel
    exact ⟨st, hst⟩

/-- Two declared records, one present. -/
theorem LoadNodeAndEdgeInformation_short_edges_witness :
    ∃ st, LoadNodeAndEdgeInformation 3 (dataDirectory oneNodeFile shortEdgeFile)
        "/data/osrm.nodes" "/data/osrm.edges" (fresh (specCollaborators true)) = some st
      ∧ st.m_via_node_list.length = 2
      ∧ st.m_name_ID_list.length = 2
      ∧ st.m_turn_instruction_list.length = 2
      ∧ st.m_via_node_list[0]? = some 5
      ∧ st.m_name_ID_list[0]? = some 7
      ∧ st.m_turn_instruction_list[0]? = some 3 := by
  have key := LoadNodeAndEdgeInformation_short_edges (C := specCollaborators true) 3
    (dataDirectory oneNodeFile shortEdgeFile) "/data/osrm.nodes" "/data/osrm.edges"
    (fresh (specCollaborators true)) shortEdgeFile.content 2 1 (by rfl) (by decide)
    (by decide) (by decide) (by decide)
  obtain ⟨st, hst⟩ := key.2 oneNodeFile.content (by rfl) (by decide)
  obtain ⟨h1, h2, h3, h4⟩ := key.1 st hst
  obtain ⟨h5, h6, h7⟩ := h4 0 (by decide)
  refine ⟨st, hst, h1, h2, h3, ?_, ?_, ?_⟩
  · rw [h5]; decide
  · rw [h6]; decide
  · rw [h7]; decide

/-- C9 (as stated, refuted): a node file of one record and three further characters
is loaded without any error, and a coordinate list comes out; its second entry mixes
the three characters with what the first record left in the buffer. -/
theorem LoadNodeAndEdgeInformation_torn_nodes_returns :
    tornNodeFile.content.length % specNodeInfo.sizeof = 3
      ∧ (LoadNodeAndEdgeInformation 3 (dataDirectory tornNodeFile twoEdgeFile)
            "/data/osrm.nodes" "/data/osrm.edges" (fresh (specCollaborators true))).map
          (fun st => st.m_coordinate_list)
        = some [{ lat := 1, lon := 2 }, { lat := 5, lon := 2 }] := by
  decide

/-- C9 (amended): on every node file that opens, also one whose size is not a
multiple of the record size, `LoadNodeAndEdgeInformation` raises no error: it
returns once the fuel covers the records, and the coordinate list, empty before,
starts with the coordinates of the complete records of the file, in order. -/
theorem LoadNodeAndEdgeInformation_torn_nodes {C : Collaborators} (fuel : Nat)
    (fs : FileSystem) (nodes_file edges_file : String) (self : InternalDataFacade C)
    (nodes : List Char)
    (hfile : fs nodes_file = some { readable := true, content := nodes })
    (hempty : self.m_coordinate_list = [])
    (hfuel : nodes.length / C.nodeInfo.sizeof + 2 ≤ fuel) :
    ∃ st, LoadNodeAndEdgeInformation fuel fs nodes_file edges_file self = some st
      ∧ ∀ i, i < nodes.length / C.nodeInfo.sizeof →
          st.m_coordinate_list[i]?
            = some (coordinateOf C.nodeInfo (record C.nodeInfo.sizeof nodes i)) := by
  obtain ⟨st, last, hst, hlist, -⟩ := LoadNodeAndEdgeInformation_coordinates fuel fs
    nodes_file edges_file self nodes hfile hfuel
  rw [hempty, List.nil_append] at hlist
  refine ⟨st, hst, fun i hi => ?_⟩
  rw [hlist, List.getElem?_append_left (by simp [hi]), List.getElem?_map,
    List.getElem?_range hi]
  rfl

/-- One record and three characters more. -/
theorem LoadNodeAndEdgeInformation_torn_nodes_witness :
    ∃ st, LoadNodeAndEdgeInformation 3 (dataDirectory tornNodeFile twoEdgeFile)
        "/data/osrm.nodes" "/data/osrm.edges" (fresh (specCollaborators true)) = some st
      ∧ st.m_coordinate_list[0]? = some { lat := 1, lon := 2 } := by
  obtain ⟨st, h1, h2⟩ := LoadNodeAndEdgeInformation_torn_nodes
    (C := specCollaborators true) 3 (dataDirectory tornNodeFile twoEdgeFile)
    "/data/osrm.nodes" "/data/osrm.edges" (fresh (specCollaborators true))
    tornNodeFile.content (by rfl) (by rfl) (by decide)
  refine ⟨st, h1, ?_⟩
  rw [h2 0 (by decide)]; decide

/-! ## The constructor -/

/-- C6 (amended): for each of the five keys `hsgrData`, `ramIndex`, `fileIndex`,
`nodesData` and `edgesData`, and for every configuration that lacks it, the
constructor throws an `OSRMException` with one of the "no ... in server ini" messages
(the spec's `ConfigError`), and it does so before any file-size query and before
any loader is started. -/
theorem construct_missing_checked_key {C : Collaborators} (fuel : Nat) (fs : FileSystem)
    (server_config : IniFile) (base_path : String) (key : String)
    (hkey : key ∈ checkedKeys) (hmissing : server_config.Holds key = false) :
    ∃ what, construct C fuel fs server_config base_path
        = ([], .raised (.OSRMException what))
      ∧ what ∈ configMessages := by
  have hsome : server_config.Holds "hsgrData" = false ∨ server_config.Holds "ramIndex" = false
      ∨ server_config.Holds "fileIndex" = false ∨ server_config.Holds "nodesData" = false
      ∨ server_config.Holds "edgesData" = false := by
    simp only [checkedKeys, List.mem_cons, List.mem_singleton, List.not_mem_nil, or_false] at hkey
    rcases hkey with rfl | rfl | rfl | rfl | rfl <;> simp [hmissing]
  unfold construct
  by_cases h1 : server_config.Holds "hsgrData" = true
  · by_cases h2 : server_config.Holds "ramIndex" = true
    · by_cases h3 : server_config.Holds "fileIndex" = true
      · by_cases h4 : server_config.Holds "nodesData" = true
        · by_cases h5 : server_config.Holds "edgesData" = true
          · simp [h1, h2, h3, h4, h5] at hsome
          · exact ⟨"no edges file name in server ini", by simp [h1, h2, h3, h4, h5],
              by simp [configMessages]⟩
        · exact ⟨"no nodes file name in server ini", by simp [h1, h2, h3, h4],
            by simp [configMessages]⟩
      · exact ⟨"no nodes file name in server ini", by simp [h1, h2, h3],
          by simp [configMessages]⟩
    · exact ⟨"no mem index file name in server ini", by simp [h1, h2],
        by simp [configMessages]⟩
  · exact ⟨"no ram index file name in server ini", by simp [h1], by simp [configMessages]⟩

/-- A configuration without the key `edgesData`. -/
theorem construct_missing_checked_key_witness :
    "edgesData" ∈ checkedKeys
      ∧ (configWithout "edgesData").Holds "edgesData" = false
      ∧ ∃ what, construct (specCollaborators true) 3 (dataDirectory oneNodeFile twoEdgeFile)
            (configWithout "edgesData") "/data"
          = ([], .raised (.OSRMException what))
        ∧ what ∈ configMessages :=
  ⟨by decide, by decide,
    construct_missing_checked_key 3 (dataDirectory oneNodeFile twoEdgeFile)
      (configWithout "edgesData") "/data" "edgesData" (by decide) (by decide)⟩

/-- C6 (as stated, refuted): a configuration without the key `timestamp`, and one
without the key `namesData`, is accepted: with the other six keys present and the
data files in place the constructor returns a facade instead of throwing. -/
theorem construct_unchecked_key_returns :
    ((configWithout "timestamp").Holds "timestamp" = false
        ∧ (construct (specCollaborators true) 3 (dataDirectory oneNodeFile twoEdgeFile)
            (configWithout "timestamp") "/data").2.isReturned = true)
      ∧ ((configWithout "namesData").Holds "namesData" = false
        ∧ (construct (specCollaborators true) 3 (dataDirectory oneNodeFile twoEdgeFile)
            (configWithout "namesData") "/data").2.isReturned = true) := by
  decide

theorem construct_past_checks {C : Collaborators} (fuel : Nat) (fs : FileSystem)
    (server_config : IniFile) (base_path : String)
    (hkeys : ∀ key ∈ requiredKeys, server_config.Holds key = true) :
    construct C fuel fs server_config base_path
      = (let hsgr_path := C.absolute (server_config.GetParameter "hsgrData") base_path
    let ram_index_path := C.absolute (server_config.GetParameter "ramIndex") base_path
    let file_index_path := C.absolute (server_config.GetParameter "fileIndex") base_path
    let node_data_path := C.absolute (server_config.GetParameter "nodesData") base_path
    let edge_data_path := C.absolute (server_config.GetParameter "edgesData") base_path
    let t₁ := [Event.file_size node_data_path]
    match fs.file_size node_data_path with
    | .error e => (t₁, .raised e)
    | .ok node_size =>
    if 0 == node_size then (t₁, .raised (.OSRMException "nodes file is empty")) else
    let t₂ := t₁ ++ [Event.file_size edge_data_path]
    match fs.file_size edge_data_path with
    | .error e => (t₂, .raised e)
    | .ok edge_size =>
    if 0 == edge_size then (t₂, .raised (.OSRMException "edges file is empty")) else
    let t₃ := t₂ ++ [Event.LoadGraph hsgr_path]
    match LoadGraph fs hsgr_path (fresh C) with
    | .error e => (t₃, .raised e)
    | .ok self₁ =>
    let t₄ := t₃ ++ [Event.LoadNodeAndEdgeInformation node_data_path edge_data_path]
    match LoadNodeAndEdgeInformation fuel fs node_data_path edge_data_path self₁ with
    | none => (t₄, .unfinished)
    | some self₂ =>
    let t₅ := t₄ ++ [Event.LoadRTree ram_index_path file_index_path]
    match LoadRTree fs ram_index_path file_index_path self₂ with
    | .error e => (t₅, .raised e)
    | .ok self₃ =>
    (t₅ ++ [Event.LoadTimestamp hsgr_path], .returned (LoadTimestamp fs hsgr_path self₃))) := by
  have h1 := hkeys "hsgrData" (by simp [requiredKeys])
  have h2 := hkeys "ramIndex" (by simp [requiredKeys])
  have h3 := hkeys "fileIndex" (by simp [requiredKeys])
  have h4 := hkeys "nodesData" (by simp [requiredKeys])
  have h5 := hkeys "edgesData" (by simp [requiredKeys])
  unfold construct
  simp only [h1, h2, h3, h4, h5, Bool.not_true, Bool.false_eq_true, if_false]

/-- C8: for every configuration that holds all required keys, if the node-data file
or the edge-data file exists with size zero, the constructor ends with an exception:
`OSRMException("nodes file is empty")`, `OSRMException("edges file is empty")`, or
the `filesystem_error` of `file_size` for a node-data file that does not exist (all
of them the spec's `MissingInput`). Up to then it has only asked for file sizes: no
loader has been started, so no facade is left half loaded. -/
theorem construct_empty_data_file {C : Collaborators} (fuel : Nat) (fs : FileSystem)
    (server_config : IniFile) (base_path : String)
    (hkeys : ∀ key ∈ requiredKeys, server_config.Holds key = true)
    (hzero :
      (∃ f, fs (C.absolute (server_config.GetParameter "nodesData") base_path) = some f
          ∧ f.content.length = 0)
        ∨ (∃ f, fs (C.absolute (server_config.GetParameter "edgesData") base_path) = some f
          ∧ f.content.length = 0)) :
    ∃ trace failure, construct C fuel fs server_config base_path = (trace, .raised failure)
      ∧ failure ∈ [Failure.OSRMException "nodes file is empty",
          Failure.OSRMException "edges file is empty", Failure.filesystem_error]
      ∧ ∀ event ∈ trace, ∃ path, event = Event.file_size path := by
  rw [construct_past_checks fuel fs server_config base_path hkeys]
  dsimp only
  generalize C.absolute (server_config.GetParameter "nodesData") base_path = node_data_path
    at hzero ⊢
  generalize C.absolute (server_config.GetParameter "edgesData") base_path = edge_data_path
    at hzero ⊢
  cases hnode : fs node_data_path with
  | none =>
    refine ⟨[Event.file_size node_data_path], .filesystem_error, ?_, by simp, ?_⟩
    · simp only [FileSystem.file_size, hnode]
    · simp
  | some fn =>
    by_cases hn0 : fn.content.length = 0
    · refine ⟨[Event.file_size node_data_path], .OSRMException "nodes file is empty", ?_,
        by simp, ?_⟩
      · simp only [FileSystem.file_size, hnode, hn0, beq_self_eq_true, if_true]
      · simp
    · have hedge : ∃ f, fs edge_data_path = some f ∧ f.content.length = 0 := by
        rcases hzero with ⟨f, hf, hf0⟩ | h
        · rw [hnode] at hf
          cases hf
          exact absurd hf0 hn0
        · exact h
      obtain ⟨fe, hfe, hfe0⟩ := hedge
      have hne : (0 == fn.content.length) = false := by
        simp only [beq_eq_false_iff_ne, ne_eq]
        omega
      refine ⟨[Event.file_size node_data_path, Event.file_size edge_data_path],
        .OSRMException "edges file is empty", ?_, by simp, ?_⟩
      · simp only [FileSystem.file_size, hnode, hne, hfe, hfe0, beq_self_eq_true, if_true,
          Bool.false_eq_true, if_false, List.singleton_append]
      · simp

/-- A zero-byte node file. -/
theorem construct_empty_data_file_witness :
    ∃ trace failure,
      construct (specCollaborators true) 3 (dataDirectory (binaryFile []) twoEdgeFile)
          (IniFile.ofList fullConfig) "/data" = (trace, .raised failure)
        ∧ failure ∈ [Failure.OSRMException "nodes file is empty",
            Failure.OSRMException "edges file is empty", Failure.filesystem_error]
        ∧ ∀ event ∈ trace, ∃ path, event = Event.file_size path :=
  construct_empty_data_file 3 (dataDirectory (binaryFile []) twoEdgeFile)
    (IniFile.ofList fullConfig) "/data" (by decide)
    (Or.inl ⟨binaryFile [], by rfl, by rfl⟩)

theorem LoadGraph_eq {C : Collaborators} (fs : FileSystem) (hsgr_path : String)
    (self : InternalDataFacade C) (r : HSGR C.StrNode C.StrEdge)
    (hread : C.readHSGRFromStream fs hsgr_path = .ok r) :
    LoadGraph fs hsgr_path self
      = if !C.NDEBUG && r.node_list.length != 0 then
          .error (.assertion_failed "node list not flushed")
        else if !C.NDEBUG && r.edge_list.length != 0 then
          .error (.assertion_failed "edge list not flushed")
        else
          .ok { self with
            m_number_of_nodes := r.number_of_nodes
            m_check_sum := r.check_sum
            m_query_graph := some (C.newQueryGraph r.node_list r.edge_list) } := by
  unfold LoadGraph BOOST_ASSERT_MSG
  rw [hread]
  cases C.NDEBUG
  · by_cases hn : 0 = r.node_list.length
    · by_cases he : 0 = r.edge_list.length
      · simp [← hn, ← he]
      · have he2 : r.edge_list.length ≠ 0 := fun h => he h.symm
        simp [← hn, he, he2]
    · have hn2 : r.node_list.length ≠ 0 := fun h => hn h.symm
      simp [hn, hn2]
  · simp

theorem LoadGraph_m_timestamp {C : Collaborators} (fs : FileSystem) (hsgr_path : String)
    (self st : InternalDataFacade C) (h : LoadGraph fs hsgr_path self = .ok st) :
    st.m_timestamp = self.m_timestamp := by
  cases hread : C.readHSGRFromStream fs hsgr_path with
  | error e => simp [LoadGraph, hread] at h
  | ok r =>
    rw [LoadGraph_eq fs hsgr_path self r hread] at h
    split at h
    · cases h
    · split at h
      · cases h
      · cases h; rfl

theorem LoadNodeAndEdgeInformation_m_timestamp {C : Collaborators} (fuel : Nat)
    (fs : FileSystem) (nodes_file edges_file : String) (self st : InternalDataFacade C)
    (h : LoadNodeAndEdgeInformation fuel fs nodes_file edges_file self = some st) :
    st.m_timestamp = self.m_timestamp := by
  rw [LoadNodeAndEdgeInformation_eq] at h
  obtain ⟨out, -, rfl⟩ := Option.map_eq_some'.mp h
  rfl

theorem LoadRTree_m_timestamp {C : Collaborators} (fs : FileSystem)
    (ram_index_path file_index_path : String) (self st : InternalDataFacade C)
    (h : LoadRTree fs ram_index_path file_index_path self = .ok st) :
    st.m_timestamp = self.m_timestamp := by
  unfold LoadRTree at h
  split at h
  · cases h
  · cases h; rfl

theorem construct_returned {C : Collaborators} (fuel : Nat) (fs : FileSystem)
    (server_config : IniFile) (base_path : String) (trace : List Event)
    (st : InternalDataFacade C)
    (h : construct C fuel fs server_config base_path = (trace, .returned st)) :
    ∃ self₃ : InternalDataFacade C, self₃.m_timestamp = ""
      ∧ st = LoadTimestamp fs (C.absolute (server_config.GetParameter "hsgrData") base_path) self₃
      ∧ trace.getLast? = some (Event.LoadTimestamp
          (C.absolute (server_config.GetParameter "hsgrData") base_path)) := by
  unfold construct at h
  dsimp only at h
  split at h
  · cases h
  split at h
  · cases h
  split at h
  · cases h
  split at h
  · cases h
  split at h
  · cases h
  split at h
  · cases h
  split at h
  · cases h
  split at h
  · cases h
  split at h
  · cases h
  split at h
  · cases h
  rename_i self₁ hg
  split at h
  · cases h
  rename_i self₂ hl
  split at h
  · cases h
  rename_i self₃ hr
  simp only [Prod.mk.injEq, Outcome.returned.injEq] at h
  refine ⟨self₃, ?_, h.2.symm, ?_⟩
  · rw [LoadRTree_m_timestamp _ _ _ _ _ hr, LoadNodeAndEdgeInformation_m_timestamp _ _ _ _ _ _ hl,
      LoadGraph_m_timestamp _ _ _ _ hg]
    rfl
  · rw [← h.1]
    simp

/-- C7 (as the code behaves): after a successful construction `GetTimestamp()` is
what `LoadTimestamp` makes of the file configured under `hsgrData`, the topology
file, not of the file configured under `timestamp`: the constructor ends with
`LoadTimestamp(hsgr_path)`, and `timestamp_path` is computed but never used. -/
theorem construct_timestamp_from_topology {C : Collaborators} (fuel : Nat)
    (fs : FileSystem) (server_config : IniFile) (base_path : String) (trace : List Event)
    (st : InternalDataFacade C)
    (h : construct C fuel fs server_config base_path = (trace, .returned st)) :
    st.GetTimestamp
        = (LoadTimestamp fs (C.absolute (server_config.GetParameter "hsgrData") base_path)
            (fresh C)).m_timestamp
      ∧ trace.getLast? = some (Event.LoadTimestamp
          (C.absolute (server_config.GetParameter "hsgrData") base_path)) := by
  obtain ⟨self₃, h1, rfl, h3⟩ := construct_returned fuel fs server_config base_path trace st h
  refine ⟨?_, h3⟩
  unfold GetTimestamp
  rw [LoadTimestamp_m_timestamp, LoadTimestamp_m_timestamp, h1]
  rfl

/-- The timestamp file holds `2024-01-01`, or is absent, and the topology file
starts with the line `ABC`: the facade reports `ABC` both times. -/
theorem construct_timestamp_from_topology_witness :
    (∃ trace st,
        construct (specCollaborators true) 3 (dataDirectory oneNodeFile twoEdgeFile)
            (IniFile.ofList fullConfig) "/data" = (trace, .returned st)
          ∧ st.GetTimestamp = "ABC"
          ∧ (LoadTimestamp (dataDirectory oneNodeFile twoEdgeFile) "/data/osrm.timestamp"
              (fresh (specCollaborators true))).m_timestamp = "2024-01-01")
      ∧ (∃ trace st,
        construct (specCollaborators true) 3 unstampedDirectory
            (IniFile.ofList fullConfig) "/data" = (trace, .returned st)
          ∧ st.GetTimestamp = "ABC"
          ∧ unstampedDirectory "/data/osrm.timestamp" = none) := by
  constructor
  · refine ⟨_, _, rfl, ?_, by decide⟩
    rw [(construct_timestamp_from_topology (C := specCollaborators true) 3
      (dataDirectory oneNodeFile twoEdgeFile) (IniFile.ofList fullConfig) "/data" _ _ rfl).1]
    decide
  · refine ⟨_, _, rfl, ?_, by decide⟩
    rw [(construct_timestamp_from_topology (C := specCollaborators true) 3
      unstampedDirectory (IniFile.ofList fullConfig) "/data" _ _ rfl).1]
    decide

/-- C10 (as the code behaves): `LoadGraph` tests the two staging buffers right after
`readHSGRFromStream` has filled them and before the graph is constructed. In a build
with assertions a topology with a node record ends in the failed assertion
`node list not flushed`, one with only edge records in `edge list not flushed`; the
graph constructor is reached only when both buffers are empty. -/
theorem LoadGraph_asserts_before_construction {C : Collaborators} (fs : FileSystem)
    (hsgr_path : String) (self : InternalDataFacade C) (r : HSGR C.StrNode C.StrEdge)
    (hread : C.readHSGRFromStream fs hsgr_path = .ok r) (hdebug : C.NDEBUG = false) :
    (r.node_list ≠ [] →
        LoadGraph fs hsgr_path self = .error (.assertion_failed "node list not flushed"))
      ∧ (r.node_list = [] → r.edge_list ≠ [] →
        LoadGraph fs hsgr_path self = .error (.assertion_failed "edge list not flushed"))
      ∧ (r.node_list = [] → r.edge_list = [] →
        ∃ st, LoadGraph fs hsgr_path self = .ok st) := by
  rw [LoadGraph_eq fs hsgr_path self r hread, hdebug]
  refine ⟨fun hn => ?_, fun hn he => ?_, fun hn he => ?_⟩
  · have : r.node_list.length ≠ 0 := fun h => hn (List.length_eq_zero.mp h)
    simp [this]
  · have : r.edge_list.length ≠ 0 := fun h => he (List.length_eq_zero.mp h)
    simp [hn, this]
  · simp [hn, he]

/-- A topology file with one node record, loaded in a build with assertions. -/
theorem LoadGraph_asserts_before_construction_witness :
    LoadGraph (dataDirectory oneNodeFile twoEdgeFile) "/data/osrm.hsgr"
        (fresh (specCollaborators false))
      = .error (.assertion_failed "node list not flushed") :=
  (LoadGraph_asserts_before_construction (C := specCollaborators false)
    (dataDirectory oneNodeFile twoEdgeFile) "/data/osrm.hsgr" (fresh (specCollaborators false))
    { number_of_nodes := 1, node_list := ([0] : List Nat), edge_list := [], check_sum := 172180033 }
    (by rfl) rfl).1 (by simp)

end OSRM
